import Mathlib

/-!
Verification of the Therabeat music module (`music.py`).

Shallow embedding conventions:
* Python floats are modelled as exact rationals (`ℚ`); every numeric value
  that arises in this module is a finite decimal, so no rounding is lost.
* Profile documents are association lists from string keys to loosely typed
  values (`PyVal`): Python `None`, strings, ints and bools, the types that
  occur in stored profile documents.
* A Python expression that may raise is modelled in `Except Unit`; the
  catch-all `except` handlers of the source become `match` on the `Except`.
* The classifier model, the generation API and the playlist search are
  opaque collaborators, modelled as explicit function / data parameters.
-/

instance exceptDecEq {ε α : Type} [DecidableEq ε] [DecidableEq α] :
    DecidableEq (Except ε α)
  | Except.error e, Except.error f => decidable_of_iff (e = f) (by simp)
  | Except.error _, Except.ok _ => isFalse (by simp)
  | Except.ok _, Except.error _ => isFalse (by simp)
  | Except.ok a, Except.ok b => decidable_of_iff (a = b) (by simp)

/-- A loosely typed value from a profile document. -/
inductive PyVal : Type
  | none : PyVal
  | str : String → PyVal
  | int : Int → PyVal
  | bool : Bool → PyVal
deriving DecidableEq

/-- Python `str()` of a document value (`str(None) = "None"`, ints print in
decimal with a leading minus for negatives, bools print capitalised). -/
def pyStr : PyVal → String
  | PyVal.none => "None"
  | PyVal.str s => s
  | PyVal.int n => toString n
  | PyVal.bool b => if b then "True" else "False"

/-- A profile document: an association list keyed by field name.
`dict.get` is modelled by `List.lookup`. -/
def Doc : Type := List (String × PyVal)

/-- Model of Python `str.lower()` on the ASCII strings that occur here:
lower-case every character. -/
def pyLower (s : String) : String := String.mk (s.data.map Char.toLower)

/-- The numeric value of a list of decimal digit characters, most significant
first (the value Python assigns to the digit string). -/
def digitsToNat (cs : List Char) : Nat :=
  cs.foldl (fun a c => 10 * a + (c.toNat - 48)) 0

/-- The rational `n * 10 ^ e`.  Rationals are assembled with `mkRat` and
integer arithmetic only, so that every parse result is a closed normalised
rational. -/
def ratOfScaled (n : Int) (e : Int) : ℚ :=
  if 0 ≤ e then mkRat (n * ((10 ^ e.toNat : Nat) : Int)) 1
  else mkRat n (10 ^ (-e).toNat)

/-- Exponent digits of a float literal: an optionally signed nonempty digit
run scales the mantissa by the corresponding power of ten; anything else
makes the parse fail. -/
def parseExpDigits (n : Int) (e : Int) (cs : List Char) : Option ℚ :=
  match cs with
  | [] => Option.none
  | c :: r =>
      if c = '-' then
        if r ≠ [] ∧ r.all Char.isDigit then some (ratOfScaled n (e - digitsToNat r))
        else Option.none
      else if c = '+' then
        if r ≠ [] ∧ r.all Char.isDigit then some (ratOfScaled n (e + digitsToNat r))
        else Option.none
      else
        if (c :: r).all Char.isDigit then some (ratOfScaled n (e + digitsToNat (c :: r)))
        else Option.none

/-- After the mantissa (value `n * 10 ^ e`): empty input keeps the mantissa,
`e`/`E` starts an exponent, any other leftover character makes the parse
fail. -/
def parseExpPart (n : Int) (e : Int) : List Char → Option ℚ
  | [] => some (ratOfScaled n e)
  | c :: r => if c = 'e' ∨ c = 'E' then parseExpDigits n e r else Option.none

/-- Unsigned part of Python `float` parsing: an integer digit run, an
optional dot with a fractional digit run (at least one digit overall),
then an optional exponent. -/
def parseMantissa (sg : Int) (cs : List Char) : Option ℚ :=
  let ip := cs.takeWhile Char.isDigit
  let r1 := cs.dropWhile Char.isDigit
  match r1 with
  | [] => if ip.isEmpty then Option.none else some (ratOfScaled (sg * digitsToNat ip) 0)
  | c :: r2 =>
      if c = '.' then
        let fp := r2.takeWhile Char.isDigit
        let r3 := r2.dropWhile Char.isDigit
        if ip.isEmpty && fp.isEmpty then Option.none
        else
          parseExpPart (sg * (digitsToNat ip * 10 ^ fp.length + digitsToNat fp))
            (-(fp.length : Int)) r3
      else if ip.isEmpty then Option.none
      else parseExpPart (sg * digitsToNat ip) 0 (c :: r2)

/-- Optional leading sign of a float literal. -/
def splitSign (cs : List Char) : Int × List Char :=
  match cs with
  | [] => (1, [])
  | c :: r => if c = '-' then (-1, r) else if c = '+' then (1, r) else (1, c :: r)

/-- Model of Python `float(s)`: `some q` when the parse succeeds with value
`q`, `Option.none` when `float` raises `ValueError`.  (Python additionally
strips surrounding whitespace and accepts `inf`, `nan` and underscore
separators; those inputs do not occur here and are not modelled.) -/
def parsePyFloat (s : String) : Option ℚ :=
  parseMantissa (splitSign s.data).1 (splitSign s.data).2

/-- Model of `value.replace('.', '')`: deleting every dot character. -/
def replDot (cs : List Char) : List Char := cs.filter (fun c => c ≠ '.')

/-- Model of `value.replace('.', '').isdigit()` from `get_feature`:
nonempty and all decimal digits after deleting every dot. -/
def digitCheck (s : String) : Bool :=
  !(replDot s.data).isEmpty && (replDot s.data).all Char.isDigit

/-- The frequency-label ordinal table `freq_map` of `get_feature`. -/
def freq_map : List (String × ℚ) :=
  [("never", 0), ("rarely", 1), ("sometimes", 2), ("very frequently", 3)]

/-- The string-coercion body of `get_feature` (`music.py` lines 60-85),
applied to the `str()` form of a non-`None` value: digit-looking strings go
through `float` (whose failure, possible when the string holds more than
one dot, propagates — there is no local handler on that call), then
case-insensitive yes/no, then the frequency table, then a generic `float`
parse whose failure is caught and replaced by the default. -/
def coerceStr (s : String) (d : ℚ) : Except Unit ℚ :=
  if digitCheck s then
    match parsePyFloat s with
    | some q => Except.ok q
    | Option.none => Except.error ()
  else if pyLower s = "yes" then Except.ok 1
  else if pyLower s = "no" then Except.ok 0
  else
    match freq_map.lookup (pyLower s) with
    | some q => Except.ok q
    | Option.none => Except.ok ((parsePyFloat s).getD d)

/-- Coercion of a document value (`get_feature` lines 56-85): `None` yields
the default, any other value is converted with `str()` and coerced. -/
def coerceVal (v : PyVal) (d : ℚ) : Except Unit ℚ :=
  match v with
  | PyVal.none => Except.ok d
  | v => coerceStr (pyStr v) d

/-- `get_feature(key, default)` of `music.py`: look the key up in the
profile document and coerce the stored value.  When the key is absent the
Python code feeds the numeric default through the same coercion; coercing
a number is the identity (its `str()` form parses back to itself), so the
missing-key case returns the default directly. -/
def get_feature (doc : Doc) (key : String) (d : ℚ) : Except Unit ℚ :=
  match List.lookup key doc with
  | Option.none => Except.ok d
  | some v => coerceVal v d

/-- The fixed 8-label genre table `GENRE_MAPPING` of `music.py`. -/
def GENRE_MAPPING : List String :=
  ["Rock", "Pop", "Metal", "EDM", "Hip hop", "Classical", "Video game music", "R&B"]

/-- The per-genre prompt table `GENRE_PROMPTS` of `music.py`. -/
def GENRE_PROMPTS : List (String × String) :=
  [("Classical", "Compose a serene classical piano piece reminiscent of a peaceful afternoon in a garden."),
   ("EDM", "Create an upbeat and energetic electronic dance track suitable for a vibrant festival atmosphere."),
   ("Hip hop", "Generate a laid-back hip hop beat with a smooth rhythm and catchy bassline, perfect for a chill evening."),
   ("Metal", "Produce a high-intensity metal track with fast guitar riffs and powerful drum beats."),
   ("Pop", "Compose a catchy pop melody with an uplifting vibe and a memorable chorus."),
   ("R&B", "Create a soulful R&B track with a slow groove and emotional vocal harmonies."),
   ("Rock", "Generate a classic rock anthem with strong guitar chords and a steady, driving beat."),
   ("Video game music", "Compose an adventurous and dynamic theme suitable for an action-packed video game level.")]

/-- A yes/no flag feature (`music.py` lines 91-95): the document value
(default the string `No`) is converted with `str()`, lower-cased and
compared with `yes`; this direct comparison does not go through
`get_feature`. -/
def yesFlag (doc : Doc) (key : String) : ℚ :=
  if pyLower (pyStr ((List.lookup key doc).getD (PyVal.str "No"))) = "yes" then 1 else 0

/-- The music-effects feature (`music.py` line 114): the `MusicEffects`
value (default the string `No`) is lower-cased and compared with
`improve`. -/
def improveFlag (doc : Doc) : ℚ :=
  if pyLower (pyStr ((List.lookup "MusicEffects" doc).getD (PyVal.str "No"))) = "improve" then 1
  else 0

/-- A frequency feature (`music.py` lines 98-109): the inner
`get_feature(legacyKey, 2)` is evaluated first (Python evaluates the
default argument eagerly), and its result is the default of the outer
`get_feature(curKey, ...)`; an exception in either lookup propagates. -/
def freqFeature (doc : Doc) (curKey legacyKey : String) : Except Unit ℚ := do
  let d ← get_feature doc legacyKey 2
  get_feature doc curKey d

/-- The 12 frequency key pairs of `music.py` lines 98-109, in source order:
current (prefixed) key first, bracketed legacy key second. -/
def freqKeys : List (String × String) :=
  [("Frequency_Classical", "Frequency [Classical]"),
   ("Frequency_EDM", "Frequency [EDM]"),
   ("Frequency_Folk", "Frequency [Folk]"),
   ("Frequency_Gospel", "Frequency [Gospel]"),
   ("Frequency_HipHop", "Frequency [Hip hop]"),
   ("Frequency_Jazz", "Frequency [Jazz]"),
   ("Frequency_KPop", "Frequency [K pop]"),
   ("Frequency_Metal", "Frequency [Metal]"),
   ("Frequency_Pop", "Frequency [Pop]"),
   ("Frequency_RnB", "Frequency [R&B]"),
   ("Frequency_Rock", "Frequency [Rock]"),
   ("Frequency_VGM", "Frequency [Video game music]")]

/-- The 25 feature computations of `input_features` (`music.py` lines
88-115) in source order.  Each entry models one element expression of the
Python list literal; the enclosing `float(...)` calls are identities on the
already-numeric results. -/
def featureComputations (doc : Doc) : List (Except Unit ℚ) :=
  [get_feature doc "Age" 25,
   get_feature doc "Hours per day" 2,
   Except.ok (yesFlag doc "While working"),
   Except.ok (yesFlag doc "Instrumentalist"),
   Except.ok (yesFlag doc "Composer"),
   Except.ok (yesFlag doc "Exploratory"),
   Except.ok (yesFlag doc "Foreign languages"),
   get_feature doc "BPM" 120,
   freqFeature doc "Frequency_Classical" "Frequency [Classical]",
   freqFeature doc "Frequency_EDM" "Frequency [EDM]",
   freqFeature doc "Frequency_Folk" "Frequency [Folk]",
   freqFeature doc "Frequency_Gospel" "Frequency [Gospel]",
   freqFeature doc "Frequency_HipHop" "Frequency [Hip hop]",
   freqFeature doc "Frequency_Jazz" "Frequency [Jazz]",
   freqFeature doc "Frequency_KPop" "Frequency [K pop]",
   freqFeature doc "Frequency_Metal" "Frequency [Metal]",
   freqFeature doc "Frequency_Pop" "Frequency [Pop]",
   freqFeature doc "Frequency_RnB" "Frequency [R&B]",
   freqFeature doc "Frequency_Rock" "Frequency [Rock]",
   freqFeature doc "Frequency_VGM" "Frequency [Video game music]",
   get_feature doc "Anxiety" 5,
   get_feature doc "Depression" 5,
   get_feature doc "Insomnia" 5,
   get_feature doc "OCD" 5,
   Except.ok (improveFlag doc)]

/-- Sequencing of the element computations of a Python list literal:
left to right, the first exception aborting the whole literal. -/
def seqExcept : List (Except Unit ℚ) → Except Unit (List ℚ)
  | [] => Except.ok []
  | e :: es => do
      let x ← e
      let xs ← seqExcept es
      Except.ok (x :: xs)

/-- The `input_features` list of `predict_favorite_genre`: the encoded
25-entry feature vector, or an exception if any element raises. -/
def input_features (doc : Doc) : Except Unit (List ℚ) :=
  seqExcept (featureComputations doc)

/-- The index clamp of `predict_favorite_genre` (`music.py` line 126):
`max(0, min(index, len(GENRE_MAPPING) - 1))`. -/
def clampIndex (i : Int) : Int :=
  max 0 (min i ((GENRE_MAPPING.length : Int) - 1))

/-- `predict_favorite_genre(user_profile, model)` of `music.py`.  The model
abstracts `int(model.predict(...)[0])`: it receives the feature vector and
either raises (any internal exception, bad types, missing capability) or
returns the list of predicted class indices.  An empty prediction list maps
to index 0, the index is clamped, and the label is read off
`GENRE_MAPPING`; the surrounding `try` turns every exception into the
fallback label `Pop`.  (The clamped index is always in range, so the `getD`
default is never consulted.) -/
def predict_favorite_genre (doc : Doc) (model : List ℚ → Except Unit (List Int)) : String :=
  match (do
      let fs ← input_features doc
      let pred ← model fs
      let index : Int := match pred with | [] => 0 | i :: _ => i
      Except.ok (GENRE_MAPPING.getD (clampIndex index).toNat "Pop")
    : Except Unit String) with
  | Except.error _ => "Pop"
  | Except.ok g => g

/-- One response of the task-status endpoint, in the shape `get_track_status`
returns: a status literal, and the value at `meta.track_url` when both keys
are present (`Option.none` models a response where the lookup
`track_status["meta"]["track_url"]` would raise `KeyError`).  On transport
errors `get_track_status` itself substitutes `{"status": "failed"}`, so a
status string is always present. -/
structure StatusResp where
  status : String
  track_url : Option String
deriving DecidableEq

/-- Observable outcome of one run of `watch_task_status`: the playback URLs
handed to `play_audio_from_url` in order, whether the success and failure
messages were shown, and the total time slept in `asyncio.sleep(10)`
calls. -/
structure WatchResult where
  playbacks : List String
  successReported : Bool
  failureReported : Bool
  totalSleep : Nat
deriving DecidableEq

/-- The polling loop of `watch_task_status` (`music.py` lines 209-219),
instrumented with fuel.  `n` is the index of the next poll, `slept` the
time slept so far; `Option.none` means the loop is still running after
`fuel` polls.  On `composed` with a present track URL, playback and the
success message happen and the loop breaks; on `composed` with the URL
missing, the `KeyError` is caught by the blanket handler and the coroutine
returns with nothing reported; on `failed`, the failure message is shown
and the loop breaks; on any other status the loop sleeps 10 and polls
again. -/
def watchAux (getStatus : Nat → StatusResp) : Nat → Nat → Nat → Option WatchResult
  | 0, _, _ => Option.none
  | fuel + 1, n, slept =>
      let ts := getStatus n
      if ts.status = "composed" then
        match ts.track_url with
        | some url => some ⟨[url], true, false, slept⟩
        | Option.none => some ⟨[], false, false, slept⟩
      else if ts.status = "failed" then
        some ⟨[], false, true, slept⟩
      else
        watchAux getStatus fuel (n + 1) (slept + 10)

/-- `watch_task_status(task_id)` of `music.py`, starting at the first poll
with nothing slept. -/
def watch_task_status (getStatus : Nat → StatusResp) (fuel : Nat) : Option WatchResult :=
  watchAux getStatus fuel 0 0

/-- The request body built by `create_and_compose` (`music.py` lines
232-238): `{prompt: {text, genre}, format: "wav"}`. -/
structure TrackMeta where
  promptText : String
  promptGenre : String
  format : String
deriving DecidableEq

/-- The prompt text for a genre: `GENRE_PROMPTS.get(genre, "Compose a
melody")`. -/
def promptText (genre : String) : String :=
  (GENRE_PROMPTS.lookup genre).getD "Compose a melody"

/-- The `track_meta` request body for a genre. -/
def trackMetaFor (genre : String) : TrackMeta :=
  ⟨promptText genre, genre, "wav"⟩

/-- The generation service as `create_and_compose` observes it:
`task_id` is what `compose_track` returns (`Option.none` models a submit
failure, where `compose_track` catches its exception and returns Python
`None`), and `getStatus` is the status response of the n-th poll. -/
structure GenService where
  task_id : Option String
  getStatus : Nat → StatusResp

/-- Observable outcome of one run of `create_and_compose`: the boolean
return value, the request body that was submitted (`Option.none` when the
API-key guard returned before building it), and the watch outcome
(`Option.none` when the watch never ran). -/
structure ComposeResult where
  returned : Bool
  request : Option TrackMeta
  watch : Option WatchResult
deriving DecidableEq

/-- `create_and_compose(genre)` of `music.py` (lines 224-249), instrumented
with fuel for the inner poll loop.  A missing API key returns `False`
before anything is built; a falsy task id — Python `None` or the empty
string — reports a start failure and returns `False`; otherwise the watch
runs and, whenever it terminates, the function returns `True` regardless of
whether the track composed or failed.  The outer `Option.none` means the
poll loop was still running after `fuel` polls, so the call has not
returned. -/
def create_and_compose (keyConfigured : Bool) (svc : GenService) (genre : String)
    (fuel : Nat) : Option ComposeResult :=
  if !keyConfigured then some ⟨false, Option.none, Option.none⟩
  else
    match svc.task_id with
    | Option.none => some ⟨false, some (trackMetaFor genre), Option.none⟩
    | some tid =>
        if tid = "" then some ⟨false, some (trackMetaFor genre), Option.none⟩
        else
          match watch_task_status svc.getStatus fuel with
          | Option.none => Option.none
          | some w => some ⟨true, some (trackMetaFor genre), some w⟩

/-- The `limit` parameter of the playlist search call (`music.py` line
150). -/
def spotifySearchLimit : Nat := 5

/-- `get_spotify_playlist(genre, sp_client)` of `music.py` (lines 133-159).
The search collaborator is abstracted by its outcome: `Except.error ()`
when the call (or client construction) raises — caught by the blanket
handler — `Except.ok Option.none` when the response is falsy or has no
`playlists` key, and `Except.ok (some items)` with the canonical URLs of
the returned playlist items.  `random.choice` over a nonempty list is
abstracted by the index `k`, reduced modulo the length. -/
def get_spotify_playlist (search : Except Unit (Option (List String))) (k : Nat) :
    Option String :=
  match search with
  | Except.error _ => Option.none
  | Except.ok Option.none => Option.none
  | Except.ok (some []) => Option.none
  | Except.ok (some (u :: us)) =>
      some ((u :: us).get ⟨k % (u :: us).length, Nat.mod_lt _ (by simp)⟩)

/-- Modelled from the spec: a numeric-looking string in the sense of the
field-coercion rule, namely all characters digits or a single decimal
point (with at least one digit, so that the parse can succeed). -/
def numericLooking (s : String) : Bool :=
  s.data.all (fun c => c.isDigit || c = '.') && s.data.count '.' ≤ 1 && s.data.any Char.isDigit

/-- Modelled from the spec: the field-coercion rule exactly as the claim
states it, applied to the string form of a value.  `None` maps to the
default, a numeric-looking string parses as a float, case-insensitive
yes/no map to 1/0, a case-insensitive frequency label maps to its ordinal,
and any other value gets a generic numeric parse falling back to the
default — never an error. -/
def specCoerce (v : PyVal) (d : ℚ) : ℚ :=
  match v with
  | PyVal.none => d
  | v =>
      let s := pyStr v
      if numericLooking s then (parsePyFloat s).getD d
      else if pyLower s = "yes" then 1
      else if pyLower s = "no" then 0
      else
        match freq_map.lookup (pyLower s) with
        | some q => q
        | Option.none => (parsePyFloat s).getD d

/-- Modelled from the spec as amended: the coercion rule with the digit
test the code actually performs — all characters digits after deleting
every decimal point — and an explicit error case: such a string containing
more than one decimal point makes the float parse raise, and the exception
escapes the coercion (reaching the outer fallback of the prediction).  All
other cases are as in the original rule. -/
def specCoerceAmendedStr (s : String) (d : ℚ) : Except Unit ℚ :=
  if digitCheck s then
    if s.data.count '.' ≤ 1 then Except.ok ((parsePyFloat s).getD d)
    else Except.error ()
  else if pyLower s = "yes" then Except.ok 1
  else if pyLower s = "no" then Except.ok 0
  else
    match freq_map.lookup (pyLower s) with
    | some q => Except.ok q
    | Option.none => Except.ok ((parsePyFloat s).getD d)

/-- The amended coercion rule on document values: `None` maps to the
default, every other value is coerced in its string form. -/
def specCoerceAmended (v : PyVal) (d : ℚ) : Except Unit ℚ :=
  match v with
  | PyVal.none => Except.ok d
  | v => specCoerceAmendedStr (pyStr v) d

/-- The claim that the field-coercion rule, as the spec words it, is what
the code computes on every value, never raising: the source coercion always
succeeds with the value of the spec rule.  (Refuted below: a digit string
with two decimal points raises inside `get_feature`.) -/
def claimCoercionUniform : Prop :=
  (∀ v d, coerceVal v d = Except.ok (specCoerce v d)) ∧
  (∀ doc key, yesFlag doc key = specCoerce ((List.lookup key doc).getD (PyVal.str "No")) 0)

/-- The claim that `create_and_compose` returns true exactly when a track
was composed and playback was triggered.  (Refuted below: a first-poll
`failed` status returns true with no playback.) -/
def claimComposeIff : Prop :=
  ∀ keyConfigured svc genre fuel r,
    create_and_compose keyConfigured svc genre fuel = some r →
    (r.returned = true ↔
      ∃ w, r.watch = some w ∧ w.successReported = true ∧ w.playbacks ≠ [])

/-- A generation service that accepts the submission and fails on the first
status poll. -/
def svcFailFast : GenService := ⟨some "abc", fun _ => ⟨"failed", Option.none⟩⟩

/-- A generation service that accepts the submission, polls `processing`
twice and then reports `composed` with track URL `u`. -/
def svcComposeAt2 : GenService :=
  ⟨some "abc", fun n => if n < 2 then ⟨"processing", Option.none⟩ else ⟨"composed", some "u"⟩⟩

/-- Every character of a string passing the digit check is a digit or a
dot. -/
theorem digitCheck_all {s : String} (h : digitCheck s = true) :
    ∀ c ∈ s.data, Char.isDigit c ∨ c = '.' := by
  intro c hc
  by_cases hdot : c = '.'
  · exact Or.inr hdot
  · refine Or.inl ?_
    have h2 := (Bool.and_eq_true _ _).mp h |>.2
    rw [List.all_eq_true] at h2
    exact h2 c (List.mem_filter.mpr ⟨hc, by simpa using hdot⟩)

/-- A string passing the digit check contains at least one digit. -/
theorem digitCheck_exists {s : String} (h : digitCheck s = true) :
    ∃ c ∈ s.data, Char.isDigit c := by
  have h1 := (Bool.and_eq_true _ _).mp h |>.1
  have h2 := (Bool.and_eq_true _ _).mp h |>.2
  rw [List.all_eq_true] at h2
  have hne : replDot s.data ≠ [] := by
    intro hnil
    rw [hnil] at h1
    simp at h1
  obtain ⟨c, hc⟩ := List.exists_mem_of_ne_nil _ hne
  exact ⟨c, (List.mem_filter.mp hc).1, h2 c hc⟩

theorem dropWhile_head_not {α : Type} {p : α → Bool} {l : List α} {c : α} {r : List α}
    (h : l.dropWhile p = c :: r) : ¬ p c := by
  induction l with
  | nil => simp [List.dropWhile] at h
  | cons a l ih =>
      rw [List.dropWhile_cons] at h
      by_cases hp : p a
      · exact ih (by simpa [hp] using h)
      · simp only [hp, if_false] at h
        cases h
        exact hp

theorem takeWhile_digits_append_dot (a b : List Char) (ha : ∀ c ∈ a, Char.isDigit c) :
    (a ++ '.' :: b).takeWhile Char.isDigit = a ∧
    (a ++ '.' :: b).dropWhile Char.isDigit = '.' :: b := by
  induction a with
  | nil =>
      refine ⟨?_, ?_⟩
      · exact List.takeWhile_cons_of_neg (by decide)
      · exact List.dropWhile_cons_of_neg (by decide)
  | cons c a ih =>
      have hc : Char.isDigit c := ha c (by simp)
      have ih2 := ih (fun x hx => ha x (by simp [hx]))
      refine ⟨?_, ?_⟩
      · rw [List.cons_append, List.takeWhile_cons_of_pos hc, ih2.1]
      · rw [List.cons_append, List.dropWhile_cons_of_pos hc, ih2.2]

theorem splitSign_id {cs : List Char} (h : ∀ c ∈ cs, Char.isDigit c ∨ c = '.') :
    splitSign cs = (1, cs) := by
  cases cs with
  | nil => rfl
  | cons c r =>
      have hc := h c (by simp)
      have h1 : c ≠ '-' := by rintro rfl; revert hc; decide
      have h2 : c ≠ '+' := by rintro rfl; revert hc; decide
      simp [splitSign, h1, h2]

theorem parseMantissa_all_digits (sg : Int) (cs : List Char) (hne : cs ≠ [])
    (hall : ∀ c ∈ cs, Char.isDigit c) :
    parseMantissa sg cs = some (ratOfScaled (sg * digitsToNat cs) 0) := by
  have ht : cs.takeWhile Char.isDigit = cs := List.takeWhile_eq_self_iff.mpr hall
  have hd : cs.dropWhile Char.isDigit = [] := List.dropWhile_eq_nil_iff.mpr hall
  unfold parseMantissa
  rw [hd, ht]
  simp [hne]

theorem parseMantissa_one_dot (sg : Int) (a b : List Char) (ha : ∀ c ∈ a, Char.isDigit c)
    (hb : ∀ c ∈ b, Char.isDigit c) (hne : ¬(a = [] ∧ b = [])) :
    ∃ q, parseMantissa sg (a ++ '.' :: b) = some q := by
  obtain ⟨ht, hd⟩ := takeWhile_digits_append_dot a b ha
  have htb : b.takeWhile Char.isDigit = b := List.takeWhile_eq_self_iff.mpr hb
  have hdb : b.dropWhile Char.isDigit = [] := List.dropWhile_eq_nil_iff.mpr hb
  have hcond : (a.isEmpty && b.isEmpty) = false := by
    rcases not_and_or.mp hne with h | h <;> simp [List.isEmpty_iff, h]
  unfold parseMantissa
  rw [hd, ht]
  dsimp only
  rw [htb, hdb]
  simp [hcond, parseExpPart]

theorem parseMantissa_multidot (sg : Int) (cs : List Char)
    (hall : ∀ c ∈ cs, Char.isDigit c ∨ c = '.') (hcount : 2 ≤ cs.count '.') :
    parseMantissa sg cs = Option.none := by
  have hmem : '.' ∈ cs := List.count_pos_iff.mp (by omega)
  have hdropne : cs.dropWhile Char.isDigit ≠ [] := by
    intro hnil
    have : ∀ c ∈ cs, Char.isDigit c := List.dropWhile_eq_nil_iff.mp hnil
    have := this '.' hmem
    simp at this
  cases hR : cs.dropWhile Char.isDigit with
  | nil => exact absurd hR hdropne
  | cons c r2 =>
      have hcnd : ¬ Char.isDigit c := dropWhile_head_not hR
      have hcmem : c ∈ cs :=
        (List.dropWhile_sublist Char.isDigit).subset (hR ▸ List.mem_cons_self ..)
      have hcdot : c = '.' := (hall c hcmem).resolve_left hcnd
      subst hcdot
      have hsplit : cs.takeWhile Char.isDigit ++ '.' :: r2 = cs := by
        rw [← hR]; exact List.takeWhile_append_dropWhile _ _
      have hcount2 : 1 ≤ r2.count '.' := by
        have h0 : (cs.takeWhile Char.isDigit).count '.' = 0 := by
          refine List.count_eq_zero.mpr ?_
          intro hmemt
          have := List.mem_takeWhile_imp hmemt
          simp at this
        have hcc : cs.count '.' = (cs.takeWhile Char.isDigit).count '.' + ('.' :: r2).count '.' := by
          rw [← List.count_append, hsplit]
        rw [h0] at hcc
        simp [List.count_cons] at hcc
        omega
      have hr2sub : r2 ⊆ cs := by
        intro x hx
        exact hsplit ▸ List.mem_append_right _ (List.mem_cons_of_mem '.' hx)
      have hr3ne : r2.dropWhile Char.isDigit ≠ [] := by
        intro hnil
        have hall2 : ∀ x ∈ r2, Char.isDigit x := List.dropWhile_eq_nil_iff.mp hnil
        have hdotmem : '.' ∈ r2 := List.count_pos_iff.mp (by omega)
        have := hall2 '.' hdotmem
        simp at this
      cases hR3 : r2.dropWhile Char.isDigit with
      | nil => exact absurd hR3 hr3ne
      | cons c2 r3 =>
          have hc2nd : ¬ Char.isDigit c2 := dropWhile_head_not hR3
          have hc2mem : c2 ∈ cs :=
            hr2sub ((List.dropWhile_sublist Char.isDigit).subset (hR3 ▸ List.mem_cons_self c2 r3))
          have hc2dot : c2 = '.' := (hall c2 hc2mem).resolve_left hc2nd
          subst hc2dot
          unfold parseMantissa
          rw [hR]
          dsimp only
          rw [hR3]
          simp [parseExpPart]

/-- A string passing the digit check with at most one dot parses as a
float. -/
theorem parsePyFloat_digit_le_one {s : String} (h : digitCheck s = true)
    (hc : s.data.count '.' ≤ 1) : ∃ q, parsePyFloat s = some q := by
  have hall := digitCheck_all h
  obtain ⟨cd, hcdmem, hcd⟩ := digitCheck_exists h
  unfold parsePyFloat
  rw [splitSign_id hall]
  dsimp only
  by_cases hdot : '.' ∈ s.data
  · have hdne : s.data.dropWhile Char.isDigit ≠ [] := by
      intro hnil
      have hall2 := List.dropWhile_eq_nil_iff.mp hnil
      have := hall2 '.' hdot
      simp at this
    cases hR : s.data.dropWhile Char.isDigit with
    | nil => exact absurd hR hdne
    | cons c r2 =>
        have hcnd : ¬ Char.isDigit c := dropWhile_head_not hR
        have hcmem : c ∈ s.data :=
          (List.dropWhile_sublist Char.isDigit).subset (hR ▸ List.mem_cons_self ..)
        have hcdot : c = '.' := (hall c hcmem).resolve_left hcnd
        subst hcdot
        have hsplit : s.data.takeWhile Char.isDigit ++ '.' :: r2 = s.data := by
          rw [← hR]; exact List.takeWhile_append_dropWhile _ _
        have h0 : (s.data.takeWhile Char.isDigit).count '.' = 0 := by
          refine List.count_eq_zero.mpr ?_
          intro hmemt
          have := List.mem_takeWhile_imp hmemt
          simp at this
        have hcc : s.data.count '.' =
            (s.data.takeWhile Char.isDigit).count '.' + ('.' :: r2).count '.' := by
          rw [← List.count_append, hsplit]
        rw [h0] at hcc
        simp [List.count_cons] at hcc
        have hr2nodot : '.' ∉ r2 := by
          refine List.count_eq_zero.mp ?_
          omega
        have hr2dig : ∀ x ∈ r2, Char.isDigit x := by
          intro x hx
          have hxm : x ∈ s.data :=
            hsplit ▸ List.mem_append_right _ (List.mem_cons_of_mem '.' hx)
          refine (hall x hxm).resolve_right ?_
          intro heq
          exact hr2nodot (heq ▸ hx)
        have hne : ¬(s.data.takeWhile Char.isDigit = [] ∧ r2 = []) := by
          rintro ⟨h1, h2⟩
          rw [h1, h2] at hsplit
          rw [← hsplit] at hcdmem
          simp at hcdmem
          rw [hcdmem] at hcd
          simp at hcd
        obtain ⟨q, hq⟩ :=
          parseMantissa_one_dot 1 (s.data.takeWhile Char.isDigit) r2
            (fun x hx => List.mem_takeWhile_imp hx) hr2dig hne
        rw [← hsplit]
        exact ⟨q, hq⟩
  · have halld : ∀ x ∈ s.data, Char.isDigit x := by
      intro x hx
      exact (hall x hx).resolve_right (fun heq => hdot (heq ▸ hx))
    exact ⟨_, parseMantissa_all_digits 1 _ (List.ne_nil_of_mem hcdmem) halld⟩

/-- A string passing the digit check with more than one dot makes the
float parse fail: this is exactly where `float(value)` raises inside
`get_feature`. -/
theorem parsePyFloat_digit_multidot {s : String} (h : digitCheck s = true)
    (hc : 2 ≤ s.data.count '.') : parsePyFloat s = Option.none := by
  have hall := digitCheck_all h
  unfold parsePyFloat
  rw [splitSign_id hall]
  exact parseMantissa_multidot 1 _ hall hc

/-- The string coercion of `get_feature` is the amended spec rule: on a
digit-check success it parses (raising exactly when the string has more
than one dot), and otherwise the yes/no, frequency and generic-parse cases
coincide. -/
theorem coerceStr_eq_amendedStr (s : String) (d : ℚ) :
    coerceStr s d = specCoerceAmendedStr s d := by
  unfold coerceStr specCoerceAmendedStr
  by_cases hdc : digitCheck s
  · rw [if_pos hdc, if_pos hdc]
    by_cases hct : s.data.count '.' ≤ 1
    · obtain ⟨q, hq⟩ := parsePyFloat_digit_le_one hdc hct
      rw [hq, if_pos hct]
      rfl
    · have hnone := parsePyFloat_digit_multidot hdc (by omega)
      rw [hnone, if_neg hct]
  · rw [if_neg hdc, if_neg hdc]

/-- The document-value coercion of `get_feature` is the amended spec
rule. -/
theorem coerceVal_eq_specCoerceAmended (v : PyVal) (d : ℚ) :
    coerceVal v d = specCoerceAmended v d := by
  cases v with
  | none => rfl
  | str s => exact coerceStr_eq_amendedStr s d
  | int n => exact coerceStr_eq_amendedStr (pyStr (PyVal.int n)) d
  | bool b => exact coerceStr_eq_amendedStr (pyStr (PyVal.bool b)) d

/-- If the first `n` polls are non-terminal and poll `n` is `composed` with
a track URL, the watch loop returns after poll `n` with exactly one
playback of that URL, success reported, and `10 * n` slept. -/
theorem watchAux_composed (getStatus : Nat → StatusResp) (url : String) :
    ∀ (n fuel start slept : Nat),
      (∀ m, m < n → (getStatus (start + m)).status ≠ "composed" ∧
        (getStatus (start + m)).status ≠ "failed") →
      getStatus (start + n) = ⟨"composed", some url⟩ →
      n < fuel →
      watchAux getStatus fuel start slept = some ⟨[url], true, false, slept + 10 * n⟩ := by
  intro n
  induction n with
  | zero =>
      intro fuel start slept _ hterm hfuel
      cases fuel with
      | zero => omega
      | succ f =>
          rw [Nat.add_zero] at hterm
          simp [watchAux, hterm]
  | succ n ih =>
      intro fuel start slept hpre hterm hfuel
      cases fuel with
      | zero => omega
      | succ f =>
          have h0 := hpre 0 (by omega)
          rw [Nat.add_zero] at h0
          have hrec := ih f (start + 1) (slept + 10)
            (fun m hm => by
              have := hpre (m + 1) (by omega)
              rwa [show start + (m + 1) = start + 1 + m by omega] at this)
            (by rwa [show start + 1 + n = start + (n + 1) by omega])
            (by omega)
          have harith : slept + 10 + 10 * n = slept + 10 * (n + 1) := by omega
          rw [harith] at hrec
          simp only [watchAux]
          rw [if_neg h0.1, if_neg h0.2]
          exact hrec

/-- If the first `n` polls are non-terminal and poll `n` is `failed`, the
watch loop returns after poll `n` with no playback, the failure reported,
and `10 * n` slept. -/
theorem watchAux_failed (getStatus : Nat → StatusResp) :
    ∀ (n fuel start slept : Nat),
      (∀ m, m < n → (getStatus (start + m)).status ≠ "composed" ∧
        (getStatus (start + m)).status ≠ "failed") →
      (getStatus (start + n)).status = "failed" →
      n < fuel →
      watchAux getStatus fuel start slept = some ⟨[], false, true, slept + 10 * n⟩ := by
  intro n
  induction n with
  | zero =>
      intro fuel start slept _ hterm hfuel
      cases fuel with
      | zero => omega
      | succ f =>
          rw [Nat.add_zero] at hterm
          have hnc : (getStatus start).status ≠ "composed" := by rw [hterm]; decide
          simp only [watchAux]
          rw [if_neg hnc, if_pos hterm]
          simp
  | succ n ih =>
      intro fuel start slept hpre hterm hfuel
      cases fuel with
      | zero => omega
      | succ f =>
          have h0 := hpre 0 (by omega)
          rw [Nat.add_zero] at h0
          have hrec := ih f (start + 1) (slept + 10)
            (fun m hm => by
              have := hpre (m + 1) (by omega)
              rwa [show start + (m + 1) = start + 1 + m by omega] at this)
            (by rwa [show start + 1 + n = start + (n + 1) by omega])
            (by omega)
          have harith : slept + 10 + 10 * n = slept + 10 * (n + 1) := by omega
          rw [harith] at hrec
          simp only [watchAux]
          rw [if_neg h0.1, if_neg h0.2]
          exact hrec

/-- If no poll ever returns a terminal status, the watch loop is still
running after any number of polls. -/
theorem watchAux_nonterminal (getStatus : Nat → StatusResp)
    (h : ∀ m, (getStatus m).status ≠ "composed" ∧ (getStatus m).status ≠ "failed") :
    ∀ (fuel start slept : Nat), watchAux getStatus fuel start slept = Option.none := by
  intro fuel
  induction fuel with
  | zero => intro start slept; rfl
  | succ f ih =>
      intro start slept
      simp only [watchAux]
      rw [if_neg (h start).1, if_neg (h start).2]
      exact ih (start + 1) (slept + 10)

/-- After `k` non-terminal polls the loop is exactly at poll `k`, having
slept `10 * k`: each attempt costs one fixed sleep of 10. -/
theorem watchAux_shift (getStatus : Nat → StatusResp) :
    ∀ (k fuel start slept : Nat),
      (∀ m, m < k → (getStatus (start + m)).status ≠ "composed" ∧
        (getStatus (start + m)).status ≠ "failed") →
      watchAux getStatus (k + fuel) start slept =
        watchAux getStatus fuel (start + k) (slept + 10 * k) := by
  intro k
  induction k with
  | zero => intro fuel start slept _; simp
  | succ k ih =>
      intro fuel start slept hpre
      have h0 := hpre 0 (by omega)
      rw [Nat.add_zero] at h0
      have hstep : k + 1 + fuel = (k + fuel) + 1 := by omega
      rw [hstep]
      simp only [watchAux]
      rw [if_neg h0.1, if_neg h0.2]
      have hrec := ih fuel (start + 1) (slept + 10)
        (fun m hm => by
          have := hpre (m + 1) (by omega)
          rwa [show start + (m + 1) = start + 1 + m by omega] at this)
      rw [hrec, show start + 1 + k = start + (k + 1) by omega,
        show slept + 10 + 10 * k = slept + 10 * (k + 1) by omega]

/-- The clamped classifier index is always a valid position of the 8-label
genre table. -/
theorem clampIndex_toNat_lt (i : Int) : (clampIndex i).toNat < GENRE_MAPPING.length := by
  simp only [clampIndex, GENRE_MAPPING, List.length]
  omega

theorem GENRE_MAPPING_getD_mem : ∀ n < 8, GENRE_MAPPING.getD n "Pop" ∈ GENRE_MAPPING := by
  decide

theorem except_bind_ok {α β : Type} (a : α) (f : α → Except Unit β) :
    (Except.ok a >>= f) = f a := rfl

theorem except_bind_error {α β : Type} (f : α → Except Unit β) :
    ((Except.error () : Except Unit α) >>= f) = Except.error () := rfl

/-- Whatever the document and the model do, the prediction is one of the 8
fixed genre labels. -/
theorem predict_favorite_genre_mem (doc : Doc) (model : List ℚ → Except Unit (List Int)) :
    predict_favorite_genre doc model ∈ GENRE_MAPPING := by
  unfold predict_favorite_genre
  cases hf : input_features doc with
  | error e =>
      cases e
      rw [except_bind_error]
      decide
  | ok fs =>
      rw [except_bind_ok]
      cases hm : model fs with
      | error e =>
          cases e
          rw [except_bind_error]
          decide
      | ok pred =>
          rw [except_bind_ok]
          exact GENRE_MAPPING_getD_mem _ (clampIndex_toNat_lt _)

/-- Every genre label has its own prompt, distinct from the generic
fallback prompt. -/
theorem GENRE_PROMPTS_total :
    ∀ g ∈ GENRE_MAPPING, ∃ p, GENRE_PROMPTS.lookup g = some p ∧ p ≠ "Compose a melody" := by
  decide

/-- C1 (counterexample): `create_and_compose` does not return true only
when a track was composed and playback was triggered — with a service whose
first poll reports `failed`, it returns true with no playback and no
success. -/
theorem C1_compose_iff_counterexample : ¬ claimComposeIff := by
  intro h
  have h1 := h true svcFailFast "Pop" 1 ⟨true, some (trackMetaFor "Pop"), some ⟨[], false, true, 0⟩⟩
    (by decide)
  obtain ⟨w, hw, hs, hp⟩ := h1.mp rfl
  injection hw with hw2
  subst hw2
  exact absurd hs (by decide)

/-- C1 (amended): `create_and_compose(genre)` returns true iff the API key
is configured, submission yielded a non-falsy task id, and the status watch
terminated; in particular, when the first `n` polls are non-terminal and
poll `n` returns `composed` with a track URL, it returns true and triggers
playback exactly once with that URL. -/
theorem C1_compose_amended (keyC : Bool) (svc : GenService) (genre : String) (fuel : Nat) :
    (∀ r, create_and_compose keyC svc genre fuel = some r →
      (r.returned = true ↔ keyC = true ∧ ∃ tid, svc.task_id = some tid ∧ tid ≠ "")) ∧
    (∀ (n : Nat) (url tid : String),
      (∀ m, m < n → (svc.getStatus m).status ≠ "composed" ∧
        (svc.getStatus m).status ≠ "failed") →
      svc.getStatus n = ⟨"composed", some url⟩ →
      n < fuel → keyC = true → svc.task_id = some tid → tid ≠ "" →
      create_and_compose keyC svc genre fuel =
        some ⟨true, some (trackMetaFor genre), some ⟨[url], true, false, 10 * n⟩⟩) := by
  constructor
  · intro r hr
    cases keyC with
    | false =>
        unfold create_and_compose at hr
        simp only [Bool.not_false, if_true] at hr
        cases hr
        simp
    | true =>
        cases htid : svc.task_id with
        | none =>
            unfold create_and_compose at hr
            rw [htid] at hr
            simp only [Bool.not_true, if_false] at hr
            cases hr
            simp [htid]
        | some tid =>
            unfold create_and_compose at hr
            rw [htid] at hr
            simp only [Bool.not_true, if_false] at hr
            by_cases hemp : tid = ""
            · subst hemp
              rw [if_pos rfl] at hr
              cases hr
              simp [htid]
            · rw [if_neg hemp] at hr
              cases hw : watch_task_status svc.getStatus fuel with
              | none => rw [hw] at hr; cases hr
              | some w =>
                  rw [hw] at hr
                  cases hr
                  simp [htid]
                  exact hemp
  · intro n url tid hpre hcomp hfuel hkey htid hne
    subst hkey
    have hw : watch_task_status svc.getStatus fuel = some ⟨[url], true, false, 10 * n⟩ := by
      have := watchAux_composed svc.getStatus url n fuel 0 0
        (fun m hm => by simpa using hpre m hm) (by simpa using hcomp) hfuel
      simpa using this
    unfold create_and_compose
    rw [htid]
    simp only [Bool.not_true, if_false]
    rw [if_neg hne, hw]
    rfl

/-- C1 (witness): a run where submission yields task id `abc` and the
status sequence is `processing, processing, composed` with URL `u` returns
true and plays `u` exactly once, after two sleeps of 10. -/
theorem C1_compose_amended_witness :
    create_and_compose true svcComposeAt2 "Pop" 5 =
      some ⟨true, some (trackMetaFor "Pop"), some ⟨["u"], true, false, 20⟩⟩ :=
  (C1_compose_amended true svcComposeAt2 "Pop" 5).2 2 "u" "abc"
    (fun m hm => by
      refine ⟨?_, ?_⟩ <;> simp [svcComposeAt2, hm])
    (by decide) (by decide) rfl rfl (by decide)

/-- C2: `predict_favorite_genre` never raises (it is a total function into
labels of the fixed 8-genre table) and returns the fallback label `Pop`
whenever the classifier invocation itself fails. -/
theorem C2_predict_never_raises (doc : Doc) (model : List ℚ → Except Unit (List Int)) :
    predict_favorite_genre doc model ∈ GENRE_MAPPING ∧
    ((∀ fs, model fs = Except.error ()) → predict_favorite_genre doc model = "Pop") := by
  refine ⟨predict_favorite_genre_mem doc model, ?_⟩
  intro hfail
  unfold predict_favorite_genre
  cases hf : input_features doc with
  | error e => cases e; rw [except_bind_error]
  | ok fs => rw [except_bind_ok, hfail fs, except_bind_error]

/-- C2 (witness): on the empty profile with an always-failing classifier,
the prediction is `Pop` and is one of the 8 labels. -/
theorem C2_predict_witness :
    predict_favorite_genre [] (fun _ => Except.error ()) ∈ GENRE_MAPPING ∧
    predict_favorite_genre [] (fun _ => Except.error ()) = "Pop" :=
  ⟨(C2_predict_never_raises [] _).1, (C2_predict_never_raises [] _).2 (fun _ => rfl)⟩

theorem seqExcept_length :
    ∀ (l : List (Except Unit ℚ)) (v : List ℚ), seqExcept l = Except.ok v → v.length = l.length := by
  intro l
  induction l with
  | nil =>
      intro v h
      cases h
      rfl
  | cons e es ih =>
      intro v h
      simp only [seqExcept] at h
      cases e with
      | error err => cases err; rw [except_bind_error] at h; cases h
      | ok x =>
          rw [except_bind_ok] at h
          cases hs : seqExcept es with
          | error err => cases err; rw [hs, except_bind_error] at h; cases h
          | ok xs =>
              rw [hs, except_bind_ok] at h
              cases h
              simp [ih xs hs]

/-- C3: the encoded feature vector, whenever the encoding succeeds, has
exactly 25 entries in the fixed source order, and the empty profile
document encodes to the all-defaults vector. -/
theorem C3_feature_vector :
    (∀ (doc : Doc) (v : List ℚ), input_features doc = Except.ok v → v.length = 25) ∧
    input_features [] =
      Except.ok [25, 2, 0, 0, 0, 0, 0, 120, 2, 2, 2, 2, 2, 2, 2, 2, 2, 2, 2, 2, 5, 5, 5, 5, 0] := by
  constructor
  · intro doc v h
    rw [seqExcept_length _ v h]
    rfl
  · decide

/-- C3 (witness): the all-defaults vector produced by the empty document
has 25 entries. -/
theorem C3_feature_vector_witness :
    ([25, 2, 0, 0, 0, 0, 0, 120, 2, 2, 2, 2, 2, 2, 2, 2, 2, 2, 2, 2, 5, 5, 5, 5, 0] :
      List ℚ).length = 25 :=
  C3_feature_vector.1 [] _ C3_feature_vector.2

/-- C4 (counterexample): the coercion rule as the spec words it is not what
the code computes: on the value `"1.2.3"` (which passes the code's digit
check but has two decimal points) `get_feature` raises instead of falling
back to the default, and the flag fields bypass the rule entirely (the
numeric-looking string `"1"` encodes to 0, not 1). -/
theorem C4_coercion_counterexample : ¬ claimCoercionUniform := by
  intro h
  have h1 := h.1 (PyVal.str "1.2.3") 7
  revert h1
  decide

/-- C4 (amended): the coercion applied by `get_feature` is the spec rule
amended in two places: numeric-looking means all characters are digits
after deleting every decimal point, and such a string with more than one
decimal point makes the parse raise (escaping to the outer `Pop`
fallback); moreover the five yes/no flag fields are not pulled through the
rule but compared directly with `yes` — on the numeric-looking string `"1"`
the flag encodes 0 where the rule gives 1. -/
theorem C4_coercion_amended :
    (∀ v d, coerceVal v d = specCoerceAmended v d) ∧
    yesFlag [("While working", PyVal.str "1")] "While working" = 0 ∧
    specCoerceAmended (PyVal.str "1") 0 = Except.ok 1 :=
  ⟨coerceVal_eq_specCoerceAmended, by decide, by decide⟩

theorem freqFeature_flip (cur legacy : String) (hne : cur ≠ legacy) (v : PyVal) :
    freqFeature [(legacy, v)] cur legacy = freqFeature [(cur, v)] cur legacy := by
  have hne' : legacy ≠ cur := fun h => hne h.symm
  have hb1 : (cur == legacy) = false := beq_eq_false_iff_ne.mpr hne
  have hb2 : (legacy == cur) = false := beq_eq_false_iff_ne.mpr hne'
  have l1 : List.lookup legacy ([(legacy, v)] : Doc) = some v := by simp [List.lookup]
  have l2 : List.lookup cur ([(legacy, v)] : Doc) = Option.none := by
    simp [List.lookup, hb1]
  have l3 : List.lookup legacy ([(cur, v)] : Doc) = Option.none := by
    simp [List.lookup, hb2]
  have l4 : List.lookup cur ([(cur, v)] : Doc) = some v := by simp [List.lookup]
  unfold freqFeature get_feature
  rw [l1, l2, l3, l4]
  dsimp only
  cases hcv : coerceVal v 2 with
  | error e =>
      cases e
      simp only [hcv, except_bind_error, except_bind_ok]
  | ok q =>
      simp only [hcv, except_bind_ok]

/-- C5: for each of the 12 frequency fields, a document holding only the
bracketed legacy key encodes identically to one holding only the prefixed
current key, and a document with neither key encodes the default ordinal
2. -/
theorem C5_legacy_key_fallback :
    ∀ p ∈ freqKeys,
      (∀ v, freqFeature [(p.2, v)] p.1 p.2 = freqFeature [(p.1, v)] p.1 p.2) ∧
      freqFeature [] p.1 p.2 = Except.ok 2 := by
  intro p hp
  refine ⟨fun v => freqFeature_flip p.1 p.2 ?_ v, rfl⟩
  fin_cases hp <;> decide

/-- C5 (witness): the classical-music frequency field encodes `Never`
identically through its legacy and current keys. -/
theorem C5_legacy_key_witness :
    freqFeature [("Frequency [Classical]", PyVal.str "Never")]
        "Frequency_Classical" "Frequency [Classical]" =
      freqFeature [("Frequency_Classical", PyVal.str "Never")]
        "Frequency_Classical" "Frequency [Classical]" :=
  (C5_legacy_key_fallback ("Frequency_Classical", "Frequency [Classical]") (by decide)).1
    (PyVal.str "Never")

/-- C6: every classifier index, however far out of range, is clamped into
`[0, 7]` before the lookup into the fixed 8-label table, so the lookup
never indexes out of bounds; `-1` clamps to 0 (`Rock`) and `99` clamps to 7
(`R&B`). -/
theorem C6_index_clamp :
    (∀ i : Int, 0 ≤ clampIndex i ∧ clampIndex i ≤ 7 ∧
      (clampIndex i).toNat < GENRE_MAPPING.length) ∧
    clampIndex (-1) = 0 ∧ clampIndex 99 = 7 ∧
    GENRE_MAPPING.getD (clampIndex (-1)).toNat "Pop" = "Rock" ∧
    GENRE_MAPPING.getD (clampIndex 99).toNat "Pop" = "R&B" := by
  refine ⟨?_, by decide, by decide, by decide, by decide⟩
  intro i
  refine ⟨?_, ?_, clampIndex_toNat_lt i⟩ <;>
    · simp only [clampIndex, GENRE_MAPPING, List.length]
      omega

/-- C7: when submission yields a (non-falsy) task id and the first status
poll returns `failed`, `create_and_compose` returns true, the failure is
reported, and playback is never invoked. -/
theorem C7_failed_first_poll (svc : GenService) (genre : String) (fuel : Nat) (tid : String)
    (htid : svc.task_id = some tid) (hne : tid ≠ "")
    (hfail : (svc.getStatus 0).status = "failed") (hfuel : 1 ≤ fuel) :
    create_and_compose true svc genre fuel =
      some ⟨true, some (trackMetaFor genre), some ⟨[], false, true, 0⟩⟩ := by
  have hw : watch_task_status svc.getStatus fuel = some ⟨[], false, true, 0⟩ := by
    have := watchAux_failed svc.getStatus 0 fuel 0 0
      (fun m hm => absurd hm (Nat.not_lt_zero m)) (by simpa using hfail) (by omega)
    simpa using this
  unfold create_and_compose
  rw [htid]
  simp only [Bool.not_true, if_false]
  rw [if_neg hne, hw]
  rfl

/-- C7 (witness): the fail-fast service run returns true with the failure
reported and no playback. -/
theorem C7_failed_witness :
    create_and_compose true svcFailFast "Rock" 1 =
      some ⟨true, some (trackMetaFor "Rock"), some ⟨[], false, true, 0⟩⟩ :=
  C7_failed_first_poll svcFailFast "Rock" 1 "abc" rfl (by decide) rfl (by decide)

/-- C8: the playlist lookup returns null when the search raises, when the
response has no playlist list, or when the list is empty; with `N ≥ 1`
results it returns the URL of one of them, and the search requests at most
5 results. -/
theorem C8_playlist_lookup :
    (∀ k, get_spotify_playlist (Except.error ()) k = Option.none) ∧
    (∀ k, get_spotify_playlist (Except.ok Option.none) k = Option.none) ∧
    (∀ k, get_spotify_playlist (Except.ok (some [])) k = Option.none) ∧
    (∀ (items : List String) (k : Nat), items ≠ [] →
      ∃ u ∈ items, get_spotify_playlist (Except.ok (some items)) k = some u) ∧
    spotifySearchLimit = 5 := by
  refine ⟨fun k => rfl, fun k => rfl, fun k => rfl, ?_, rfl⟩
  intro items k hne
  cases items with
  | nil => exact absurd rfl hne
  | cons u us =>
      exact ⟨(u :: us).get ⟨k % (u :: us).length, Nat.mod_lt _ (by simp)⟩,
        List.get_mem _ _ _, rfl⟩

/-- C8 (witness): with two search results and draw 3, the lookup returns
the second URL, a member of the result list. -/
theorem C8_playlist_witness :
    ∃ u ∈ ["u1", "u2"], get_spotify_playlist (Except.ok (some ["u1", "u2"])) 3 = some u :=
  C8_playlist_lookup.2.2.2.1 ["u1", "u2"] 3 (by decide)

/-- C9: if no status poll ever returns the literal `composed` or `failed`,
the watch loop never terminates — it is still polling after any number of
steps — and after `k` non-terminal polls it has slept exactly `10 * k`,
one fixed 10-unit sleep per attempt, with no cap and no timeout. -/
theorem C9_unbounded_poll (getStatus : Nat → StatusResp)
    (h : ∀ m, (getStatus m).status ≠ "composed" ∧ (getStatus m).status ≠ "failed") :
    (∀ fuel, watch_task_status getStatus fuel = Option.none) ∧
    (∀ k fuel, watchAux getStatus (k + fuel) 0 0 = watchAux getStatus fuel k (10 * k)) := by
  constructor
  · intro fuel
    exact watchAux_nonterminal getStatus h fuel 0 0
  · intro k fuel
    have := watchAux_shift getStatus k fuel 0 0 (fun m hm => by simpa using h m)
    simpa using this

/-- C9 (witness): a permanently `processing` service is still being polled
after 7 attempts. -/
theorem C9_unbounded_poll_witness :
    watch_task_status (fun _ => ⟨"processing", Option.none⟩) 7 = Option.none :=
  (C9_unbounded_poll _ (fun _ => ⟨by decide, by decide⟩)).1 7

/-- C10: every label of the 8-genre table has its own prompt entry, and
therefore every possible prediction is submitted with that genre's specific
prompt — never the generic fallback prompt. -/
theorem C10_prompts_cover_predictions :
    (∀ g ∈ GENRE_MAPPING, ∃ p, GENRE_PROMPTS.lookup g = some p ∧ p ≠ "Compose a melody") ∧
    (∀ (doc : Doc) (model : List ℚ → Except Unit (List Int)),
      ∃ p, GENRE_PROMPTS.lookup (predict_favorite_genre doc model) = some p ∧
        (trackMetaFor (predict_favorite_genre doc model)).promptText = p ∧
        p ≠ "Compose a melody") := by
  refine ⟨GENRE_PROMPTS_total, ?_⟩
  intro doc model
  obtain ⟨p, hp, hnep⟩ := GENRE_PROMPTS_total _ (predict_favorite_genre_mem doc model)
  exact ⟨p, hp, by simp [trackMetaFor, promptText, hp], hnep⟩

/-- C10 (witness): the label `Rock` has its own prompt, distinct from the
generic fallback. -/
theorem C10_prompts_witness :
    ∃ p, GENRE_PROMPTS.lookup "Rock" = some p ∧ p ≠ "Compose a melody" :=
  C10_prompts_cover_predictions.1 "Rock" (by decide)
